import Mathlib

/-!
Shallow embedding of the Cache Fetcher of `cache-api-local`
(`src/src/index.ts`): the class `CacheApi` with its public operation
`getData` and the private helpers `checkExistFileAndServeCache`,
`saveData`, `sanitizeFilename` and `diff_in_unit`.

Modelling decisions, all driven by the source:

* JSON values are the inductive `Json`.  A file on disk holds a string;
  for the cache logic only two facts about that string matter: whether
  `JSON.parse` succeeds (and with which value) and whether the string is
  empty (the empty string is the only falsy string, and it also fails
  `JSON.parse`).  So file contents are `FileData.parses v` (a string that
  parses to `v`; such a string is nonempty, hence truthy) or
  `FileData.noParse isEmpty` (fails `JSON.parse`; `isEmpty` records
  whether the contents are the empty string).  `JSON.stringify` of a
  value `v` followed by `JSON.parse` yields `v` back, so `saveData`
  writes `FileData.parses v`.
* The filesystem is `FS`: an association list of files plus the list of
  existing directories.  `writeFileSync` and `mkdirSync` always succeed
  (the collaborator contract: whole-file writes, recursive mkdir);
  `readFileSync` on a missing path throws, modelled as the
  `JsError.fileNotFound` error.
* The single `fetch` call is an oracle `NetResult`: either the promise
  rejects (transport failure) or a response arrives with a status code
  and a body that either decodes as JSON or makes `response.json()`
  reject.  `response.ok` is `200 <= status <= 299`.
* `new Date().getTime()` is one integer instant `now` (epoch millis) per
  call.
* Every JS number this logic handles is an integer: epoch milliseconds,
  the `maxAge` seconds, HTTP status codes, and (in the model) JSON
  payload numbers.  The only non-integral values are the quotients
  inside `diff_in_unit`, so the model returns that function's result
  multiplied by 100, which is exact: for a value `x` with an exact
  decimal of at most 2 places away, `Number(x.toFixed(2)) * 100 =
  floor(100 * x + 1/2)` (ECMAScript `toFixed` rounds to the nearest
  hundredth, ties toward the larger candidate), and the freshness
  comparison `|diff| < maxAge` becomes `|100 * diff| < 100 * maxAge`.
  The binary-double representation error of the division by 1000 is
  below the two-decimal granularity for realistic timestamps and is not
  modelled.
* `decodeURIComponent` is modelled by `percentDecode` for single-byte
  (ASCII) escape sequences; a malformed escape, or a multi-byte UTF-8
  sequence (not needed by any claim), is mapped to failure
  (`JsError.uri`, the thrown `URIError`).
* `path.join a b` is modelled as `a ++ "/" ++ b`; no claim depends on
  separator normalisation.
* In `getData`, exceptions and promise rejections are the `Except`
  error channel; the public result is an `Outcome`: a returned value, a
  returned `undefined` (a code path in `checkExistFileAndServeCache`
  falls off the end of the function), or a propagated error.  Every run
  also reports how many network requests it performed.
* The mutual recursion `checkExistFileAndServeCache -> getData(skipCheck
  := true)` never re-enters the cache check, so it is embedded as the
  non-recursive function `fetchAndSave` (the body of `getData` for
  `skipCheck = true`, lines 68-86), which `checkExistFileAndServeCache`
  and `getData` both call; the paths it receives are exactly the ones
  the re-entrant call would recompute, since the computation is
  deterministic.  Totality of these Lean functions is the termination
  argument for the original recursion.
-/

namespace CacheApiLocal

/-- JSON values, as produced by `JSON.parse` / `response.json()`. -/
inductive Json where
  | null
  | bool (b : Bool)
  | num (n : ℤ)
  | str (text : String)
  | arr (items : List Json)
  | obj (members : List (String × Json))

/-- JavaScript truthiness of a JSON value, used by `if (data)` (line 75).
`NaN` does not arise: `response.json()` never produces it. -/
def Json.truthy : Json → Bool
  | .null => false
  | .bool b => b
  | .num q => decide (q ≠ 0)
  | .str s => decide (s ≠ "")
  | .arr _ => true
  | .obj _ => true

/-- First binding of a key in an object's field list (JS property access;
metadata written by this system has a single key). -/
def lookupField : List (String × Json) → String → Option Json
  | [], _ => none
  | (k, v) :: rest, key => if k = key then some v else lookupField rest key

/-- The numeric `lastFetched` property of a parsed metadata value
(line 106: `as { lastFetched: number }`, no runtime check).  A missing or
non-numeric property gives `none`: the subsequent arithmetic produces
`NaN` and the freshness comparison is false.  (A numeric string would be
coerced by the division; no claim depends on that, and metadata written
by `saveData` is numeric.) -/
def getLastFetched : Json → Option ℤ
  | .obj fields =>
      match lookupField fields "lastFetched" with
      | some (.num q) => some q
      | _ => none
  | _ => none

/-- What the cache logic observes about a file's contents: a string that
parses as JSON (necessarily nonempty, hence truthy), or a string that
fails `JSON.parse`, tagged with whether it is the empty string (the only
falsy string). -/
inductive FileData where
  | parses (v : Json)
  | noParse (isEmpty : Bool)

/-- Filesystem state: contents by path (later writes shadow earlier
ones), plus the list of directories that exist. -/
structure FS where
  dirs : List String
  files : List (String × FileData)

/-- First (most recent) entry for a path. -/
def findFile : List (String × FileData) → String → Option FileData
  | [], _ => none
  | (q, d) :: rest, p => if q = p then some d else findFile rest p

/-- Contents at a path; `none` means the file does not exist
(`fs.existsSync` false, `fs.readFileSync` throws). -/
def FS.read (fs : FS) (p : String) : Option FileData :=
  findFile fs.files p

/-- `fs.writeFileSync` (always succeeds; whole-file replacement). -/
def FS.write (fs : FS) (p : String) (d : FileData) : FS :=
  { fs with files := (p, d) :: fs.files }

/-- Lines 96-98: create the sub-folder if absent (`fs.mkdirSync`
recursive; files are untouched). -/
def ensureDir (fs : FS) (d : String) : FS :=
  if fs.dirs.contains d then fs else { fs with dirs := d :: fs.dirs }

/-- `path.join`, modelled as separator concatenation. -/
def pathJoin (a b : String) : String := a ++ "/" ++ b

/-- The characters of the class `[\/*?:"<>|\\]` in `sanitizeFilename`
(line 35). -/
def isDisallowedChar (c : Char) : Bool :=
  ['/', '*', '?', ':', '"', '<', '>', '|', '\\'].contains c

/-- JS `\s` on the ASCII range (space, tab, newline, carriage return,
vertical tab, form feed).  The Unicode space classes that `\s` also
matches behave identically for the proofs and are omitted. -/
def isWsChar (c : Char) : Bool :=
  [' ', '\t', '\n', '\r', '\x0b', '\x0c'].contains c

/-- `input.replace(/[\/*?:"<>|\\]/g, "_")`. -/
def replaceDisallowed (l : List Char) : List Char :=
  l.map (fun c => if isDisallowedChar c then '_' else c)

/-- Worker for `.replace(/\s+/g, "_")`: each maximal run of whitespace
becomes one underscore; `prevWs` records whether the previous character
belonged to a run already replaced. -/
def collapseWsAux : Bool → List Char → List Char
  | _, [] => []
  | prevWs, c :: cs =>
      if isWsChar c then
        if prevWs then collapseWsAux true cs else '_' :: collapseWsAux true cs
      else c :: collapseWsAux false cs

/-- `.replace(/\s+/g, "_")`. -/
def collapseWs (l : List Char) : List Char := collapseWsAux false l

/-- `filename.replace(/^_+/, "")`: drop leading underscores. -/
def dropLeadingUnderscores (l : List Char) : List Char :=
  l.dropWhile (· == '_')

/-- Character-level composition of the three replacements of
`sanitizeFilename` (lines 33-41), in source order. -/
def sanitizeChars (l : List Char) : List Char :=
  dropLeadingUnderscores (collapseWs (replaceDisallowed l))

/-- `CacheApi.sanitizeFilename`. -/
def sanitizeFilename (s : String) : String :=
  String.mk (sanitizeChars s.data)

/-- Value of a hexadecimal digit, upper or lower case. -/
def hexDigitVal (c : Char) : Option ℕ :=
  let n := c.toNat
  if 48 ≤ n ∧ n ≤ 57 then some (n - 48)
  else if 65 ≤ n ∧ n ≤ 70 then some (n - 55)
  else if 97 ≤ n ∧ n ≤ 102 then some (n - 87)
  else none

/-- Model of the builtin `decodeURIComponent`, restricted to single-byte
(ASCII) escape sequences: `%XX` with `XX < 80` hex decodes to that
character; a malformed escape throws `URIError` (here: `none`), and a
multi-byte UTF-8 lead byte is conservatively also mapped to `none` (no
claim involves one). -/
def percentDecode : List Char → Option (List Char)
  | [] => some []
  | '%' :: c1 :: c2 :: rest =>
      match hexDigitVal c1, hexDigitVal c2 with
      | some h, some lo =>
          let b := 16 * h + lo
          if b < 128 then (percentDecode rest).map (fun l => Char.ofNat b :: l)
          else none
      | _, _ => none
  | '%' :: _ => none
  | c :: rest => (percentDecode rest).map (fun l => c :: l)

/-- Line 51-52: `decodeURIComponent(this.sanitizeFilename(urlPath))` —
the base name of both cache artifacts.  Note the order: sanitize first,
percent-decode second.  `none` models the thrown `URIError`. -/
def cacheBaseName (urlPath : String) : Option String :=
  (percentDecode (sanitizeFilename urlPath).data).map String.mk

/-- Configuration fixed at construction (lines 27-31); `maxAge` in
seconds (integral in the model). -/
structure CacheApi where
  basePath : String
  saveFolderName : String
  maxAge : Option ℤ

/-- The full request target `basePath + "/" + urlPath` (line 49); the
network oracle makes it otherwise unused. -/
def requestUrl (api : CacheApi) (urlPath : String) : String :=
  api.basePath ++ "/" ++ urlPath

/-- Data-artifact path `saveFolderName/folderName/<base>.json`
(lines 50-53). -/
def dataPath (api : CacheApi) (folderName base : String) : String :=
  pathJoin (pathJoin api.saveFolderName folderName) (base ++ ".json")

/-- Metadata-artifact path `saveFolderName/folderName/<base>.meta.json`
(lines 54-57). -/
def metaPath (api : CacheApi) (folderName base : String) : String :=
  pathJoin (pathJoin api.saveFolderName folderName) (base ++ ".meta.json")

/-- `Math.abs` on the model's integers. -/
def jsAbs (x : ℤ) : ℤ :=
  if x < 0 then -x else x

/-- The unit argument of `diff_in_unit`; the class only ever passes
`"seconds"`. -/
inductive TimeUnit where
  | seconds
  | minutes
  | hours
  | days

/-- `CacheApi.diff_in_unit` (lines 156-184), multiplied by 100: convert
both epoch-millis arguments to seconds, subtract, convert to the unit,
and apply `Number(-.toFixed(2))`, i.e. round to the nearest hundredth
with ties toward the larger candidate.  With `k := timestamp - metaData`
(millis) the exact result times 100 is, per unit,
`floor(k/10 + 1/2) = (k + 5).fdiv 10` for seconds,
`floor(k/600 + 1/2) = (k + 300).fdiv 600` for minutes,
`floor(k/36000 + 1/2)` for hours and `floor(k/8640000 + 1/2)` for days
(`Int.fdiv` is floor division). -/
def diff_in_unit_x100 (timestamp metaData : ℤ) (unit : TimeUnit) : ℤ :=
  let k := timestamp - metaData
  match unit with
  | .seconds => (k + 5).fdiv 10
  | .minutes => (k + 300).fdiv 600
  | .hours => (k + 18000).fdiv 36000
  | .days => (k + 4320000).fdiv 8640000

/-- Line 101 `if (this.maxAge)`: JS truthiness of the optional number —
absent or `0` is falsy. -/
def maxAgeTruthy : Option ℤ → Bool
  | none => false
  | some a => decide (a ≠ 0)

/-- The numeric value of a configured `maxAge` (only consulted under
`maxAgeTruthy`). -/
def maxAgeVal : Option ℤ → ℤ
  | none => 0
  | some a => a

/-- `response.ok`: status in the 2xx range. -/
def respOk (status : ℕ) : Bool :=
  decide (200 ≤ status) && decide (status ≤ 299)

/-- The errors the operation can propagate. -/
inductive JsError where
  | transport
  | httpStatus (status : ℕ)
  | bodyDecode
  | fileNotFound (p : String)
  | jsonParse (p : String)
  | typeErr
  | uri
deriving DecidableEq

/-- Body of a response whose headers arrived. -/
inductive BodyResult where
  | json (v : Json)
  | bad

/-- Oracle for the one `fetch(url, option)` call: the promise rejects,
or a response arrives with a status and a body. -/
inductive NetResult where
  | reject
  | resp (status : ℕ) (body : BodyResult)

/-- The network path fails: transport rejection, non-success status, or
a body that does not decode (the latter throws whether or not the status
would have been consulted first; a non-ok status throws before the body
is read). -/
def netFails : NetResult → Bool
  | .reject => true
  | .resp _ .bad => true
  | .resp s (.json _) => !respOk s

/-- Public result of one `getData` call: a resolved value, a resolved
`undefined`, or a rejection. -/
inductive Outcome where
  | ok (v : Json)
  | undef
  | err (e : JsError)

/-- The catch block of `getData` (lines 79-86): read the data artifact
(`readFileSync` throws `fileNotFound` if absent, and that throw
propagates out of the catch); if the contents are truthy, return
`JSON.parse` of them (whose own failure propagates); only an existing
but empty file reaches `throw error`, re-throwing the original
network-path error `orig`. -/
def fallbackServe (fs : FS) (filePath : String) (orig : JsError) : Except JsError Json :=
  match fs.read filePath with
  | none => .error (.fileNotFound filePath)
  | some (.parses v) => .ok v
  | some (.noParse isEmpty) =>
      if isEmpty then .error orig else .error (.jsonParse filePath)

/-- `CacheApi.saveData` (lines 141-154): write the data artifact, then
the metadata artifact `{ lastFetched: now }`.  The writes succeed by the
collaborator contract; the surrounding promise is not awaited by the
caller, and the writes run synchronously. -/
def saveData (filePath : String) (data : Json) (metaDataPath : String) (now : ℤ) (fs : FS) : FS :=
  (fs.write filePath (.parses data)).write metaDataPath
    (.parses (.obj [("lastFetched", .num now)]))

/-- The `skipCheck = true` body of `getData` (lines 68-86): one network
request; on a non-ok status or an undecodable body, fall back to the
cache; on success, persist via `saveData` only when the decoded value is
truthy (line 75 `if (data)`), and return the decoded value.  The third
component counts network requests (always 1 here). -/
def fetchAndSave (net : NetResult) (now : ℤ) (filePath metaDataPath : String) (fs : FS) :
    Except JsError Json × FS × ℕ :=
  match net with
  | .reject => (fallbackServe fs filePath .transport, fs, 1)
  | .resp s b =>
      if respOk s then
        match b with
        | .json v =>
            if v.truthy then (.ok v, saveData filePath v metaDataPath now fs, 1)
            else (.ok v, fs, 1)
        | .bad => (fallbackServe fs filePath .bodyDecode, fs, 1)
      else (fallbackServe fs filePath (.httpStatus s), fs, 1)

/-- The try block of lines 103-118, entered with the already-read
metadata contents `m`: parse the metadata (failure throws to the catch),
read `lastFetched` (property access on `null` throws `TypeError`; a
missing or non-numeric property yields `NaN`, whose comparison is false,
taking the stale branch), compare
`Math.abs(Number(diff_in_unit(now, lastFetched, "seconds")))` with
`maxAge` — here both sides scaled by 100; fresh serves the data
artifact (its own parse failure throws to the catch), stale re-enters
`getData` with `skipCheck = true`, i.e. `fetchAndSave` (a rejection of
that awaited call also throws to the catch). -/
def tryMetaBranch (a : ℤ) (net : NetResult) (now : ℤ) (filePath metaDataPath : String)
    (m : FileData) (fs : FS) : Except JsError Json × FS × ℕ :=
  match m with
  | .noParse _ => (.error (.jsonParse metaDataPath), fs, 0)
  | .parses mv =>
      match mv with
      | .null => (.error .typeErr, fs, 0)
      | _ =>
          match getLastFetched mv with
          | none => fetchAndSave net now filePath metaDataPath fs
          | some lf =>
              if jsAbs (diff_in_unit_x100 now lf .seconds) < 100 * a then
                match fs.read filePath with
                | some (.parses v) => (.ok v, fs, 0)
                | some (.noParse _) => (.error (.jsonParse filePath), fs, 0)
                | none => (.error (.fileNotFound filePath), fs, 0)
              else fetchAndSave net now filePath metaDataPath fs

/-- The catch block of lines 119-125: read the data artifact
(`readFileSync` throws if absent); truthy contents are returned through
`JSON.parse` (whose failure propagates); an empty file skips the return
and control falls off the end of the enclosing function, resolving to
`undefined`. -/
def metaCatch (fs : FS) (filePath : String) : Outcome :=
  match fs.read filePath with
  | none => .err (.fileNotFound filePath)
  | some (.parses v) => .ok v
  | some (.noParse isEmpty) =>
      if isEmpty then .undef else .err (.jsonParse filePath)

/-- Lift the error channel into the public `Outcome`. -/
def exceptToOutcome : Except JsError Json × FS × ℕ → Outcome × FS × ℕ
  | (.ok v, fs, n) => (.ok v, fs, n)
  | (.error e, fs, n) => (.err e, fs, n)

/-- `CacheApi.checkExistFileAndServeCache` (lines 89-139).  Ensure the
sub-folder exists; if the data artifact is absent, force a fetch.  If it
exists and `maxAge` is truthy: a missing metadata artifact falls through
the inner `if` with no `else` and the function returns `undefined`;
otherwise run the try block, rescuing any throw with the catch block.
If `maxAge` is falsy, serve the data artifact, rethrowing its parse
failure. -/
def checkExistFileAndServeCache (maxAge : Option ℤ) (net : NetResult) (now : ℤ)
    (folderPath filePath metaDataPath : String) (fs0 : FS) : Outcome × FS × ℕ :=
  let fs := ensureDir fs0 folderPath
  match fs.read filePath with
  | none => exceptToOutcome (fetchAndSave net now filePath metaDataPath fs)
  | some d =>
      if maxAgeTruthy maxAge then
        match fs.read metaDataPath with
        | none => (.undef, fs, 0)
        | some m =>
            match tryMetaBranch (maxAgeVal maxAge) net now filePath metaDataPath m fs with
            | (.ok v, fs1, n) => (.ok v, fs1, n)
            | (.error _, fs1, n) => (metaCatch fs1 filePath, fs1, n)
      else
        match d with
        | .parses v => (.ok v, fs, 0)
        | .noParse _ => (.err (.jsonParse filePath), fs, 0)

/-- `CacheApi.getData` (lines 43-87): compute the artifact paths (the
`decodeURIComponent` in the file name can throw `URIError`); with
`skipCheck` false, delegate to `checkExistFileAndServeCache`; with
`skipCheck` true, perform the fetch-and-save body. -/
def getData (api : CacheApi) (net : NetResult) (now : ℤ) (urlPath folderName : String)
    (skipCheck : Bool) (fs : FS) : Outcome × FS × ℕ :=
  match cacheBaseName urlPath with
  | none => (.err .uri, fs, 0)
  | some base =>
      let folderPath := pathJoin api.saveFolderName folderName
      let filePath := dataPath api folderName base
      let metaDataPath := metaPath api folderName base
      if skipCheck then exceptToOutcome (fetchAndSave net now filePath metaDataPath fs)
      else checkExistFileAndServeCache api.maxAge net now folderPath filePath metaDataPath fs

/-- Modelled from the spec: the sanitization order the spec states in §6
(percent-decode the request path first, then sanitize, then append the
extension) — stated only to compare against the code's order. -/
def specOrderBaseName (urlPath : String) : Option String :=
  (percentDecode urlPath.data).map (fun d => String.mk (sanitizeChars d))

/-- The base file name the code actually derives, exposed for the
file-identity claims (`getData` uses `cacheBaseName` directly). -/
def codeBaseName (urlPath : String) : Option String :=
  cacheBaseName urlPath

/-- Test fixture: a fetcher with a 100-second freshness window over
storage root `"root"`. -/
def testApi : CacheApi := ⟨"b", "root", some 100⟩

/-- Test fixture: the same fetcher with no freshness window. -/
def testApiNone : CacheApi := ⟨"b", "root", none⟩

/-- Test fixture: empty filesystem. -/
def fsEmpty : FS := ⟨[], []⟩

/-- Test fixture: only the data artifact of entry `("f", "p")` exists,
holding the JSON number 7; no metadata artifact. -/
def fsDataOnly : FS := ⟨[], [("root/f/p.json", .parses (.num 7))]⟩

/-- Test fixture: both artifacts of entry `("f", "p")`; `lastFetched` is
200000 (epoch millis), i.e. 200 seconds in the future of the instant 0
used by the tests. -/
def fsFuture : FS := ⟨[], [("root/f/p.json", .parses (.num 7)),
  ("root/f/p.meta.json", .parses (.obj [("lastFetched", .num 200000)]))]⟩

/-- Test fixture: both artifacts of entry `("f", "p")`, freshly written
at instant 0. -/
def fsFresh : FS := ⟨[], [("root/f/p.json", .parses (.num 7)),
  ("root/f/p.meta.json", .parses (.obj [("lastFetched", .num 0)]))]⟩

/-- Test fixture: data artifact present, metadata artifact present but
not valid JSON. -/
def fsMetaBad : FS := ⟨[], [("root/f/p.json", .parses (.num 7)),
  ("root/f/p.meta.json", .noParse false)]⟩

/-! ### Helper lemmas about the filesystem model -/

theorem files_ensureDir (fs : FS) (d : String) : (ensureDir fs d).files = fs.files := by
  unfold ensureDir
  split <;> rfl

theorem read_ensureDir (fs : FS) (d p : String) : (ensureDir fs d).read p = fs.read p := by
  unfold FS.read
  rw [files_ensureDir]

theorem read_write_self (fs : FS) (p : String) (d : FileData) :
    (fs.write p d).read p = some d := by
  simp [FS.write, FS.read, findFile]

theorem read_write_of_ne {p q : String} (h : p ≠ q) (fs : FS) (d : FileData) :
    (fs.write p d).read q = fs.read q := by
  simp [FS.write, FS.read, findFile, h]

theorem dataPath_ne_metaPath (api : CacheApi) (folderName base : String) :
    dataPath api folderName base ≠ metaPath api folderName base := by
  intro h
  have h2 := congrArg String.length h
  have e1 : (".json" : String).length = 5 := rfl
  have e2 : (".meta.json" : String).length = 10 := rfl
  simp only [dataPath, metaPath, pathJoin, String.length_append, e1, e2] at h2
  omega

/-! ### Branch lemmas: how each source branch reduces -/

theorem exceptToOutcome_count (x : Except JsError Json × FS × ℕ) :
    (exceptToOutcome x).2.2 = x.2.2 := by
  obtain ⟨e, fs, n⟩ := x
  cases e <;> rfl

theorem exceptToOutcome_state (x : Except JsError Json × FS × ℕ) :
    (exceptToOutcome x).2.1 = x.2.1 := by
  obtain ⟨e, fs, n⟩ := x
  cases e <;> rfl

theorem fetchAndSave_count (net : NetResult) (now : ℤ) (fp mp : String) (fs : FS) :
    (fetchAndSave net now fp mp fs).2.2 = 1 := by
  cases net with
  | reject => rfl
  | resp s b =>
      cases b <;> simp only [fetchAndSave] <;> split_ifs <;> rfl

theorem fetchAndSave_ok {s : ℕ} (hok : respOk s = true) (v : Json) (now : ℤ)
    (fp mp : String) (fs : FS) :
    fetchAndSave (.resp s (.json v)) now fp mp fs
      = (.ok v, if v.truthy then saveData fp v mp now fs else fs, 1) := by
  simp only [fetchAndSave, hok, if_true]
  split_ifs <;> rfl

theorem fetchAndSave_fail {net : NetResult} (hnf : netFails net = true) (now : ℤ)
    (fp mp : String) (fs : FS) :
    ∃ orig : JsError, fetchAndSave net now fp mp fs = (fallbackServe fs fp orig, fs, 1) := by
  cases net with
  | reject => exact ⟨.transport, rfl⟩
  | resp s b =>
      cases b with
      | json v =>
          have hs : respOk s = false := by simpa [netFails] using hnf
          exact ⟨.httpStatus s, by simp [fetchAndSave, hs]⟩
      | bad =>
          by_cases hs : respOk s = true
          · exact ⟨.bodyDecode, by simp [fetchAndSave, hs]⟩
          · exact ⟨.httpStatus s, by simp [fetchAndSave, hs]⟩

theorem getData_check {urlPath base : String} (hb : cacheBaseName urlPath = some base)
    (api : CacheApi) (net : NetResult) (now : ℤ) (folderName : String) (fs : FS) :
    getData api net now urlPath folderName false fs
      = checkExistFileAndServeCache api.maxAge net now
          (pathJoin api.saveFolderName folderName)
          (dataPath api folderName base) (metaPath api folderName base) fs := by
  simp [getData, hb]

theorem checkExist_miss {fs0 : FS} {filePath : String}
    (h : fs0.read filePath = none) (ma : Option ℤ) (net : NetResult) (now : ℤ)
    (folderPath metaDataPath : String) :
    checkExistFileAndServeCache ma net now folderPath filePath metaDataPath fs0
      = exceptToOutcome (fetchAndSave net now filePath metaDataPath (ensureDir fs0 folderPath)) := by
  simp [checkExistFileAndServeCache, read_ensureDir, h]

theorem checkExist_noMaxAge_parses {ma : Option ℤ} {fs0 : FS} {filePath : String} {v : Json}
    (hma : maxAgeTruthy ma = false) (h : fs0.read filePath = some (.parses v))
    (net : NetResult) (now : ℤ) (folderPath metaDataPath : String) :
    checkExistFileAndServeCache ma net now folderPath filePath metaDataPath fs0
      = (.ok v, ensureDir fs0 folderPath, 0) := by
  simp [checkExistFileAndServeCache, read_ensureDir, h, hma]

theorem checkExist_metaMissing {ma : Option ℤ} {fs0 : FS} {filePath metaDataPath : String}
    {d : FileData} (hma : maxAgeTruthy ma = true) (hd : fs0.read filePath = some d)
    (hm : fs0.read metaDataPath = none) (net : NetResult) (now : ℤ) (folderPath : String) :
    checkExistFileAndServeCache ma net now folderPath filePath metaDataPath fs0
      = (.undef, ensureDir fs0 folderPath, 0) := by
  simp [checkExistFileAndServeCache, read_ensureDir, hd, hm, hma]

theorem checkExist_metaSome {ma : Option ℤ} {fs0 : FS} {filePath metaDataPath : String}
    {d m : FileData} (hma : maxAgeTruthy ma = true) (hd : fs0.read filePath = some d)
    (hm : fs0.read metaDataPath = some m) (net : NetResult) (now : ℤ) (folderPath : String) :
    checkExistFileAndServeCache ma net now folderPath filePath metaDataPath fs0
      = (match tryMetaBranch (maxAgeVal ma) net now filePath metaDataPath m
               (ensureDir fs0 folderPath) with
         | (.ok v, fs1, n) => (.ok v, fs1, n)
         | (.error _, fs1, n) => (metaCatch fs1 filePath, fs1, n)) := by
  simp [checkExistFileAndServeCache, read_ensureDir, hd, hm, hma]

theorem tryMeta_noParse (a : ℤ) (net : NetResult) (now : ℤ) (fp mp : String)
    (e : Bool) (fs : FS) :
    tryMetaBranch a net now fp mp (.noParse e) fs = (.error (.jsonParse mp), fs, 0) := rfl

theorem tryMeta_obj_fresh {fields : List (String × Json)} {lf a : ℤ} {now : ℤ}
    (hlf : getLastFetched (.obj fields) = some lf)
    (hfr : jsAbs (diff_in_unit_x100 now lf .seconds) < 100 * a)
    {fs : FS} {fp : String} {v : Json} (hread : fs.read fp = some (.parses v))
    (net : NetResult) (mp : String) :
    tryMetaBranch a net now fp mp (.parses (.obj fields)) fs = (.ok v, fs, 0) := by
  simp [tryMetaBranch, hlf, hfr, hread]

theorem tryMeta_obj_stale {fields : List (String × Json)} {lf a : ℤ} {now : ℤ}
    (hlf : getLastFetched (.obj fields) = some lf)
    (hst : ¬ jsAbs (diff_in_unit_x100 now lf .seconds) < 100 * a)
    (net : NetResult) (fp mp : String) (fs : FS) :
    tryMetaBranch a net now fp mp (.parses (.obj fields)) fs
      = fetchAndSave net now fp mp fs := by
  simp [tryMetaBranch, hlf, hst]

theorem checkExist_noMaxAge_noParse {ma : Option ℤ} {fs0 : FS} {filePath : String} {e : Bool}
    (hma : maxAgeTruthy ma = false) (h : fs0.read filePath = some (.noParse e))
    (net : NetResult) (now : ℤ) (folderPath metaDataPath : String) :
    checkExistFileAndServeCache ma net now folderPath filePath metaDataPath fs0
      = (.err (.jsonParse filePath), ensureDir fs0 folderPath, 0) := by
  simp [checkExistFileAndServeCache, read_ensureDir, h, hma]

theorem tryMetaBranch_count (a : ℤ) (net : NetResult) (now : ℤ) (fp mp : String)
    (m : FileData) (fs : FS) : (tryMetaBranch a net now fp mp m fs).2.2 ≤ 1 := by
  have hfc : ∀ fs1 : FS, (fetchAndSave net now fp mp fs1).2.2 ≤ 1 := by
    intro fs1
    rw [fetchAndSave_count]
  rcases m with mv | e
  · rcases mv with _ | b | q | s2 | xs | flds
    · simp [tryMetaBranch]
    · simpa [tryMetaBranch, getLastFetched] using hfc fs
    · simpa [tryMetaBranch, getLastFetched] using hfc fs
    · simpa [tryMetaBranch, getLastFetched] using hfc fs
    · simpa [tryMetaBranch, getLastFetched] using hfc fs
    · cases hg : getLastFetched (.obj flds) with
      | none => simpa [tryMetaBranch, hg] using hfc fs
      | some lf =>
          by_cases hfr : jsAbs (diff_in_unit_x100 now lf .seconds) < 100 * a
          · cases hr : fs.read fp with
            | none => simp [tryMetaBranch, hg, hfr, hr]
            | some dd => cases dd <;> simp [tryMetaBranch, hg, hfr, hr]
          · simpa [tryMetaBranch, hg, hfr] using hfc fs
  · simp [tryMetaBranch]

theorem checkExist_count (ma : Option ℤ) (net : NetResult) (now : ℤ)
    (folderPath filePath metaDataPath : String) (fs0 : FS) :
    (checkExistFileAndServeCache ma net now folderPath filePath metaDataPath fs0).2.2 ≤ 1 := by
  cases h : fs0.read filePath with
  | none =>
      rw [checkExist_miss h]
      simp [exceptToOutcome_count, fetchAndSave_count]
  | some d =>
      by_cases hma : maxAgeTruthy ma = true
      · cases hm : fs0.read metaDataPath with
        | none =>
            rw [checkExist_metaMissing hma h hm]
            simp
        | some m =>
            rw [checkExist_metaSome hma h hm]
            have hc := tryMetaBranch_count (maxAgeVal ma) net now filePath metaDataPath m
              (ensureDir fs0 folderPath)
            rcases htr : tryMetaBranch (maxAgeVal ma) net now filePath metaDataPath m
              (ensureDir fs0 folderPath) with ⟨e, fs1, n⟩
            rw [htr] at hc
            cases e <;> simpa using hc
      · have hma0 : maxAgeTruthy ma = false := by simpa using hma
        cases d with
        | parses v =>
            rw [checkExist_noMaxAge_parses hma0 h]
            simp
        | noParse e =>
            rw [checkExist_noMaxAge_noParse hma0 h]
            simp

/-! ### Helper lemmas about `sanitizeFilename` -/

theorem mem_replaceDisallowed {l : List Char} {c : Char}
    (hc : c ∈ replaceDisallowed l) : isDisallowedChar c = false := by
  rcases List.mem_map.1 hc with ⟨a, _, ha⟩
  by_cases h : isDisallowedChar a = true
  · rw [if_pos h] at ha
    rw [← ha]
    rfl
  · rw [if_neg h] at ha
    rw [← ha]
    simpa using h

theorem collapseWsAux_cons_ws_true {a : Char} (hw : isWsChar a = true) (as : List Char) :
    collapseWsAux true (a :: as) = collapseWsAux true as := by
  simp [collapseWsAux, hw]

theorem collapseWsAux_cons_ws_false {a : Char} (hw : isWsChar a = true) (as : List Char) :
    collapseWsAux false (a :: as) = '_' :: collapseWsAux true as := by
  simp [collapseWsAux, hw]

theorem collapseWsAux_cons_not_ws {a : Char} (hw : isWsChar a = false) (b : Bool)
    (as : List Char) : collapseWsAux b (a :: as) = a :: collapseWsAux false as := by
  simp [collapseWsAux, hw]

theorem mem_collapseWsAux {l : List Char} {b : Bool} {c : Char}
    (hc : c ∈ collapseWsAux b l) : c = '_' ∨ c ∈ l := by
  induction l generalizing b with
  | nil => simp [collapseWsAux] at hc
  | cons a as ih =>
      by_cases hw : isWsChar a = true
      · cases b with
        | true =>
            rw [collapseWsAux_cons_ws_true hw] at hc
            rcases ih hc with h | h
            · exact Or.inl h
            · exact Or.inr (List.mem_cons_of_mem _ h)
        | false =>
            rw [collapseWsAux_cons_ws_false hw] at hc
            cases hc with
            | head => exact Or.inl rfl
            | tail _ hc2 =>
                rcases ih hc2 with h | h
                · exact Or.inl h
                · exact Or.inr (List.mem_cons_of_mem _ h)
      · have hw0 : isWsChar a = false := by simpa using hw
        rw [collapseWsAux_cons_not_ws hw0] at hc
        cases hc with
        | head => exact Or.inr (List.mem_cons_self _ _)
        | tail _ hc2 =>
            rcases ih hc2 with h | h
            · exact Or.inl h
            · exact Or.inr (List.mem_cons_of_mem _ h)

theorem ws_false_of_mem_collapseWsAux {l : List Char} {b : Bool} {c : Char}
    (hc : c ∈ collapseWsAux b l) : isWsChar c = false := by
  induction l generalizing b with
  | nil => simp [collapseWsAux] at hc
  | cons a as ih =>
      by_cases hw : isWsChar a = true
      · cases b with
        | true =>
            rw [collapseWsAux_cons_ws_true hw] at hc
            exact ih hc
        | false =>
            rw [collapseWsAux_cons_ws_false hw] at hc
            cases hc with
            | head => rfl
            | tail _ hc2 => exact ih hc2
      · have hw0 : isWsChar a = false := by simpa using hw
        rw [collapseWsAux_cons_not_ws hw0] at hc
        cases hc with
        | head => exact hw0
        | tail _ hc2 => exact ih hc2

theorem mem_of_mem_dropWhile {p : Char → Bool} {l : List Char} {c : Char}
    (h : c ∈ l.dropWhile p) : c ∈ l := by
  induction l with
  | nil => exact h
  | cons a as ih =>
      rw [List.dropWhile_cons] at h
      by_cases hp : p a = true
      · rw [if_pos hp] at h
        exact List.mem_cons_of_mem _ (ih h)
      · rw [if_neg hp] at h
        exact h

theorem replaceDisallowed_eq_self {l : List Char}
    (h : ∀ c ∈ l, isDisallowedChar c = false) : replaceDisallowed l = l := by
  induction l with
  | nil => rfl
  | cons a as ih =>
      have ha : isDisallowedChar a = false := h a (List.mem_cons_self a as)
      have has : ∀ c ∈ as, isDisallowedChar c = false :=
        fun c hc => h c (List.mem_cons_of_mem _ hc)
      show (if isDisallowedChar a then '_' else a) :: replaceDisallowed as = a :: as
      rw [ih has]
      simp [ha]

theorem collapseWsAux_eq_self {l : List Char}
    (h : ∀ c ∈ l, isWsChar c = false) : ∀ b, collapseWsAux b l = l := by
  induction l with
  | nil => intro b; rfl
  | cons a as ih =>
      intro b
      have ha : isWsChar a = false := h a (List.mem_cons_self a as)
      have has : ∀ c ∈ as, isWsChar c = false :=
        fun c hc => h c (List.mem_cons_of_mem _ hc)
      rw [collapseWsAux_cons_not_ws ha, ih has]

theorem dropWhile_idem (p : Char → Bool) (l : List Char) :
    (l.dropWhile p).dropWhile p = l.dropWhile p := by
  induction l with
  | nil => rfl
  | cons a as ih =>
      rw [List.dropWhile_cons]
      by_cases h : p a = true
      · simp [h, ih]
      · rw [if_neg h, List.dropWhile_cons, if_neg h]

theorem sanitizeChars_no_disallowed {l : List Char} {c : Char}
    (hc : c ∈ sanitizeChars l) : isDisallowedChar c = false := by
  have h1 : c ∈ collapseWs (replaceDisallowed l) :=
    mem_of_mem_dropWhile hc
  rcases mem_collapseWsAux h1 with h | h
  · rw [h]
    rfl
  · exact mem_replaceDisallowed h

theorem sanitizeChars_no_ws {l : List Char} {c : Char}
    (hc : c ∈ sanitizeChars l) : isWsChar c = false :=
  ws_false_of_mem_collapseWsAux (mem_of_mem_dropWhile hc)

theorem sanitizeChars_idem (l : List Char) :
    sanitizeChars (sanitizeChars l) = sanitizeChars l := by
  have h1 : replaceDisallowed (sanitizeChars l) = sanitizeChars l :=
    replaceDisallowed_eq_self (fun _ hc => sanitizeChars_no_disallowed hc)
  have h2 : collapseWs (sanitizeChars l) = sanitizeChars l :=
    collapseWsAux_eq_self (fun _ hc => sanitizeChars_no_ws hc) false
  show dropLeadingUnderscores (collapseWs (replaceDisallowed (sanitizeChars l)))
    = sanitizeChars l
  rw [h1, h2]
  exact dropWhile_idem _ _

theorem getData_count (api : CacheApi) (net : NetResult) (now : ℤ)
    (urlPath folderName : String) (skipCheck : Bool) (fs : FS) :
    (getData api net now urlPath folderName skipCheck fs).2.2 ≤ 1 := by
  cases hb : cacheBaseName urlPath with
  | none => simp [getData, hb]
  | some base =>
      cases skipCheck with
      | true => simp [getData, hb, exceptToOutcome_count, fetchAndSave_count]
      | false =>
          rw [getData_check hb]
          exact checkExist_count _ _ _ _ _ _ _

theorem fallbackServe_absent {fs : FS} {fp : String} (h : fs.read fp = none)
    (orig : JsError) : fallbackServe fs fp orig = .error (.fileNotFound fp) := by
  simp [fallbackServe, h]

theorem fallbackServe_parses {fs : FS} {fp : String} {v : Json}
    (h : fs.read fp = some (.parses v)) (orig : JsError) :
    fallbackServe fs fp orig = .ok v := by
  simp [fallbackServe, h]

theorem fallbackServe_noParse_nonempty {fs : FS} {fp : String}
    (h : fs.read fp = some (.noParse false)) (orig : JsError) :
    fallbackServe fs fp orig = .error (.jsonParse fp) := by
  simp [fallbackServe, h]

theorem fallbackServe_empty {fs : FS} {fp : String}
    (h : fs.read fp = some (.noParse true)) (orig : JsError) :
    fallbackServe fs fp orig = .error orig := by
  simp [fallbackServe, h]

theorem metaCatch_parses {fs : FS} {fp : String} {v : Json}
    (h : fs.read fp = some (.parses v)) : metaCatch fs fp = .ok v := by
  simp [metaCatch, h]

theorem metaCatch_noParse {fs : FS} {fp : String} {e : Bool}
    (h : fs.read fp = some (.noParse e)) :
    metaCatch fs fp = if e then .undef else .err (.jsonParse fp) := by
  simp [metaCatch, h]

theorem checkExist_falsy_congr {ma1 ma2 : Option ℤ}
    (h1 : maxAgeTruthy ma1 = false) (h2 : maxAgeTruthy ma2 = false)
    (net : NetResult) (now : ℤ) (folderPath filePath metaDataPath : String) (fs0 : FS) :
    checkExistFileAndServeCache ma1 net now folderPath filePath metaDataPath fs0
      = checkExistFileAndServeCache ma2 net now folderPath filePath metaDataPath fs0 := by
  cases h : fs0.read filePath with
  | none =>
      rw [checkExist_miss h ma1, checkExist_miss h ma2]
  | some d =>
      cases d with
      | parses v =>
          rw [checkExist_noMaxAge_parses h1 h, checkExist_noMaxAge_parses h2 h]
      | noParse e =>
          rw [checkExist_noMaxAge_noParse h1 h, checkExist_noMaxAge_noParse h2 h]

/-! ### The claims -/

/-- C9: the sanitize transformation is deterministic (it is a pure
function of its input) and idempotent: `sanitizeFilename
(sanitizeFilename x) = sanitizeFilename x` for every string `x`, so
sanitizing the same request path always yields the same file identity. -/
theorem claim9_sanitize_idempotent (s : String) :
    sanitizeFilename (sanitizeFilename s) = sanitizeFilename s :=
  congrArg String.mk (sanitizeChars_idem s.data)

/-- C5, counterexample: the code sanitizes first and percent-decodes
second (`decodeURIComponent(this.sanitizeFilename(urlPath))`), not the
spec's decode-then-sanitize order; on the request path `"%2F"` the two
orders disagree, the code's derived base name is `"/"` — which contains
the unsafe character `/` — and the two distinct request paths `"a b"`
and `"a_b"` collide on the same identity. -/
theorem claim5_counterexample :
    codeBaseName "%2F" = some "/"
    ∧ specOrderBaseName "%2F" = some ""
    ∧ codeBaseName "%2F" ≠ specOrderBaseName "%2F"
    ∧ isDisallowedChar '/' = true
    ∧ "a b" ≠ "a_b"
    ∧ codeBaseName "a b" = codeBaseName "a_b" :=
  ⟨rfl, rfl, by decide, rfl, by decide, rfl⟩

/-- C5 (amended): the file name is obtained by sanitizing the request
path first and percent-decoding the result second (appending `.json`);
the sanitized string — before decoding — contains no character of the
unsafe set and no whitespace, and the map is deterministic; however
percent-decoding can reintroduce unsafe characters and two distinct
request paths can map to the same identity. -/
theorem claim5_amended (s : String) :
    ((sanitizeFilename s).data.all fun c => !(isDisallowedChar c || isWsChar c)) = true := by
  rw [List.all_eq_true]
  intro c hc
  have h1 : isDisallowedChar c = false := sanitizeChars_no_disallowed hc
  have h2 : isWsChar c = false := sanitizeChars_no_ws hc
  rw [h1, h2]
  rfl

/-- C6: with no freshness window configured, an existing data artifact
that parses as JSON is returned from disk, with no network request and
no change to the stored files. -/
theorem claim6_no_window_serves_cache (api : CacheApi) (net : NetResult) (now : ℤ)
    (urlPath folderName base : String) (fs : FS) (v : Json)
    (hma : api.maxAge = none)
    (hb : cacheBaseName urlPath = some base)
    (hd : fs.read (dataPath api folderName base) = some (.parses v)) :
    (getData api net now urlPath folderName false fs).1 = .ok v
    ∧ (getData api net now urlPath folderName false fs).2.2 = 0
    ∧ (getData api net now urlPath folderName false fs).2.1.files = fs.files := by
  have hma0 : maxAgeTruthy api.maxAge = false := by
    rw [hma]
    rfl
  rw [getData_check hb, checkExist_noMaxAge_parses hma0 hd net now]
  exact ⟨rfl, rfl, files_ensureDir fs _⟩

/-- C6, witness: the claim instantiated on the fixture with the number 7
cached and a rejecting transport: the cached value is served with zero
network requests. -/
theorem claim6_witness :
    (getData testApiNone .reject 0 "p" "f" false fsDataOnly).1 = .ok (.num 7)
    ∧ (getData testApiNone .reject 0 "p" "f" false fsDataOnly).2.2 = 0
    ∧ (getData testApiNone .reject 0 "p" "f" false fsDataOnly).2.1.files = fsDataOnly.files :=
  claim6_no_window_serves_cache testApiNone .reject 0 "p" "f" "p" fsDataOnly (.num 7)
    rfl rfl rfl

/-- C7: with no data artifact on disk and a failing network path, the
operation fails (with the `readFileSync` error of the absent fallback),
the stored files are unchanged — neither artifact is created — and
exactly one network request was made. -/
theorem claim7_hard_miss (api : CacheApi) (net : NetResult) (now : ℤ)
    (urlPath folderName base : String) (fs : FS)
    (hb : cacheBaseName urlPath = some base)
    (hmiss : fs.read (dataPath api folderName base) = none)
    (hnf : netFails net = true) :
    (getData api net now urlPath folderName false fs).1
      = .err (.fileNotFound (dataPath api folderName base))
    ∧ (getData api net now urlPath folderName false fs).2.1.files = fs.files
    ∧ (getData api net now urlPath folderName false fs).2.2 = 1 := by
  rw [getData_check hb, checkExist_miss hmiss]
  obtain ⟨orig, he⟩ := fetchAndSave_fail hnf now (dataPath api folderName base)
    (metaPath api folderName base) (ensureDir fs (pathJoin api.saveFolderName folderName))
  have hread : (ensureDir fs (pathJoin api.saveFolderName folderName)).read
      (dataPath api folderName base) = none := by
    rw [read_ensureDir]
    exact hmiss
  rw [he, fallbackServe_absent hread orig]
  exact ⟨rfl, files_ensureDir fs _, rfl⟩

/-- C7, witness: the claim instantiated on the empty storage root with a
rejecting transport. -/
theorem claim7_witness :
    (getData testApi .reject 0 "p" "f" false fsEmpty).1
      = .err (.fileNotFound "root/f/p.json")
    ∧ (getData testApi .reject 0 "p" "f" false fsEmpty).2.1.files = fsEmpty.files
    ∧ (getData testApi .reject 0 "p" "f" false fsEmpty).2.2 = 1 :=
  claim7_hard_miss testApi .reject 0 "p" "f" "p" fsEmpty rfl rfl rfl

/-- C1, counterexample: freshness window configured (100 s), data
artifact present, metadata artifact missing — the claim demands a
network fetch; the code instead performs zero network requests and
resolves to `undefined` (the inner `if` of
`checkExistFileAndServeCache` has no `else`, so control falls off the
end of the function). -/
theorem claim1_counterexample :
    (getData testApi .reject 0 "p" "f" false fsDataOnly).1 = .undef
    ∧ (getData testApi .reject 0 "p" "f" false fsDataOnly).2.2 = 0 :=
  ⟨rfl, rfl⟩

/-- C1 (amended): with a freshness window configured and the data
artifact present, a missing metadata artifact makes the operation
resolve to `undefined` with no network request; a metadata artifact
that exists but fails to parse makes the operation serve the data
artifact instead (a parse failure of the data artifact propagates, and
an empty data artifact yields `undefined`), again with no network
request.  In neither case does the operation fetch. -/
theorem claim1_amended (api : CacheApi) (net : NetResult) (now : ℤ)
    (urlPath folderName base : String) (fs : FS) (d : FileData)
    (hb : cacheBaseName urlPath = some base)
    (hma : maxAgeTruthy api.maxAge = true)
    (hd : fs.read (dataPath api folderName base) = some d) :
    (fs.read (metaPath api folderName base) = none →
      getData api net now urlPath folderName false fs
        = (.undef, ensureDir fs (pathJoin api.saveFolderName folderName), 0))
    ∧ (∀ e : Bool, fs.read (metaPath api folderName base) = some (.noParse e) →
      (getData api net now urlPath folderName false fs).2.2 = 0
      ∧ (getData api net now urlPath folderName false fs).1
          = (match d with
             | .parses v => Outcome.ok v
             | .noParse em =>
                 if em then Outcome.undef
                 else Outcome.err (.jsonParse (dataPath api folderName base)))) := by
  constructor
  · intro hm
    rw [getData_check hb, checkExist_metaMissing hma hd hm]
  · intro e hm
    rw [getData_check hb, checkExist_metaSome hma hd hm, tryMeta_noParse]
    have hread : (ensureDir fs (pathJoin api.saveFolderName folderName)).read
        (dataPath api folderName base) = some d := by
      rw [read_ensureDir]
      exact hd
    refine ⟨rfl, ?_⟩
    show metaCatch (ensureDir fs (pathJoin api.saveFolderName folderName))
      (dataPath api folderName base) = _
    cases d with
    | parses v => rw [metaCatch_parses hread]
    | noParse em => rw [metaCatch_noParse hread]

/-- C1, witness: the amended claim instantiated with a present data
artifact (the number 7) and an unparsable metadata artifact: zero
network requests, and the cached value is served. -/
theorem claim1_witness :
    (getData testApi .reject 0 "p" "f" false fsMetaBad).2.2 = 0
    ∧ (getData testApi .reject 0 "p" "f" false fsMetaBad).1 = .ok (.num 7) :=
  (claim1_amended testApi .reject 0 "p" "f" "p" fsMetaBad (.parses (.num 7))
    rfl rfl rfl).2 false rfl

/-- C2, counterexample: a cache miss whose network request succeeds with
the body decoding to the JSON value `null` — a falsy value, so line 75's
`if (data)` skips `saveData`: the decoded value is returned, but neither
the data artifact nor the metadata artifact is persisted, contradicting
the claim's "for every JSON value". -/
theorem claim2_counterexample :
    (getData testApi (.resp 200 (.json .null)) 5 "p" "f" false fsEmpty).1 = .ok .null
    ∧ (getData testApi (.resp 200 (.json .null)) 5 "p" "f" false fsEmpty).2.1.files = []
    ∧ (getData testApi (.resp 200 (.json .null)) 5 "p" "f" false fsEmpty).2.1.read
        "root/f/p.json" = none :=
  ⟨rfl, rfl, rfl⟩

/-- C2 (amended): on a cache miss whose network request succeeds with a
JSON-decoding body, the operation always returns the decoded value and
performs exactly one request; it persists the value as the data artifact
and `{lastFetched: now}` as the metadata artifact when the decoded value
is truthy, and persists nothing when the decoded value is falsy
(`null`, `false`, `0`, or the empty string). -/
theorem claim2_amended (api : CacheApi) (s : ℕ) (v : Json) (now : ℤ)
    (urlPath folderName base : String) (fs : FS)
    (hb : cacheBaseName urlPath = some base)
    (hmiss : fs.read (dataPath api folderName base) = none)
    (hok : respOk s = true) :
    (getData api (.resp s (.json v)) now urlPath folderName false fs).1 = .ok v
    ∧ (getData api (.resp s (.json v)) now urlPath folderName false fs).2.2 = 1
    ∧ (v.truthy = true →
        (getData api (.resp s (.json v)) now urlPath folderName false fs).2.1.read
          (dataPath api folderName base) = some (.parses v)
        ∧ (getData api (.resp s (.json v)) now urlPath folderName false fs).2.1.read
          (metaPath api folderName base)
            = some (.parses (.obj [("lastFetched", .num now)])))
    ∧ (v.truthy = false →
        (getData api (.resp s (.json v)) now urlPath folderName false fs).2.1.files
          = fs.files) := by
  rw [getData_check hb, checkExist_miss hmiss, fetchAndSave_ok hok]
  refine ⟨rfl, rfl, ?_, ?_⟩
  · intro ht
    rw [if_pos ht]
    constructor
    · simp [exceptToOutcome, saveData,
        read_write_of_ne (Ne.symm (dataPath_ne_metaPath api folderName base)),
        read_write_self]
    · simp [exceptToOutcome, saveData, read_write_self]
  · intro hf
    rw [if_neg (by rw [hf]; exact Bool.false_ne_true)]
    simp [exceptToOutcome, files_ensureDir]

/-- C2, witness: the amended claim instantiated with the truthy value 5
at instant 42: both artifacts are persisted. -/
theorem claim2_witness :
    (getData testApi (.resp 200 (.json (.num 5))) 42 "p" "f" false fsEmpty).2.1.read
      "root/f/p.json" = some (.parses (.num 5))
    ∧ (getData testApi (.resp 200 (.json (.num 5))) 42 "p" "f" false fsEmpty).2.1.read
      "root/f/p.meta.json" = some (.parses (.obj [("lastFetched", .num 42)])) :=
  (claim2_amended testApi 200 (.num 5) 42 "p" "f" "p" fsEmpty rfl rfl rfl).2.2.1 rfl

/-- C3, counterexample: no cache entry and a rejecting transport — the
claim demands the original network-path error (`transport`); the code
instead fails with the error of the fallback attempt itself, the
`readFileSync` file-not-found error thrown inside the catch block, which
is a different error. -/
theorem claim3_counterexample :
    (getData testApi .reject 0 "p" "f" false fsEmpty).1
      = .err (.fileNotFound "root/f/p.json")
    ∧ JsError.fileNotFound "root/f/p.json" ≠ JsError.transport :=
  ⟨rfl, by decide⟩

/-- C3 (amended): when the network path fails and the fallback also
fails, the surfaced failure is the fallback's own error, not the
original network-path error: a missing data artifact surfaces the
file-read error; through the public (cache-checking) entry a stale entry
whose data artifact is nonempty but unparsable surfaces the JSON parse
error, and one whose data artifact is empty makes the operation resolve
to `undefined` instead of failing. -/
theorem claim3_amended (api : CacheApi) (net : NetResult) (now : ℤ)
    (urlPath folderName base : String) (fs : FS)
    (hb : cacheBaseName urlPath = some base)
    (hnf : netFails net = true) :
    (fs.read (dataPath api folderName base) = none →
      (getData api net now urlPath folderName false fs).1
        = .err (.fileNotFound (dataPath api folderName base)))
    ∧ (∀ a lf : ℤ, ∀ fields : List (String × Json),
        api.maxAge = some a → a ≠ 0 →
        fs.read (metaPath api folderName base) = some (.parses (.obj fields)) →
        getLastFetched (.obj fields) = some lf →
        ¬ jsAbs (diff_in_unit_x100 now lf .seconds) < 100 * a →
        (fs.read (dataPath api folderName base) = some (.noParse false) →
          (getData api net now urlPath folderName false fs).1
            = .err (.jsonParse (dataPath api folderName base)))
        ∧ (fs.read (dataPath api folderName base) = some (.noParse true) →
          (getData api net now urlPath folderName false fs).1 = .undef)) := by
  constructor
  · intro hmiss
    rw [getData_check hb, checkExist_miss hmiss]
    obtain ⟨orig, he⟩ := fetchAndSave_fail hnf now (dataPath api folderName base)
      (metaPath api folderName base) (ensureDir fs (pathJoin api.saveFolderName folderName))
    have hread : (ensureDir fs (pathJoin api.saveFolderName folderName)).read
        (dataPath api folderName base) = none := by
      rw [read_ensureDir]
      exact hmiss
    rw [he, fallbackServe_absent hread orig]
    rfl
  · intro a lf fields hma ha hm hlf hst
    have hmat : maxAgeTruthy api.maxAge = true := by
      rw [hma]
      simpa [maxAgeTruthy] using ha
    constructor
    · intro hd
      have hread : (ensureDir fs (pathJoin api.saveFolderName folderName)).read
          (dataPath api folderName base) = some (.noParse false) := by
        rw [read_ensureDir]
        exact hd
      rw [getData_check hb, checkExist_metaSome hmat hd hm, hma]
      show (match tryMetaBranch (maxAgeVal (some a)) net now _ _ _ _ with
            | (.ok v, fs1, n) => (Outcome.ok v, fs1, n)
            | (.error _, fs1, n) => (metaCatch fs1 _, fs1, n)).1 = _
      rw [show maxAgeVal (some a) = a from rfl, tryMeta_obj_stale hlf hst]
      obtain ⟨orig, he⟩ := fetchAndSave_fail hnf now (dataPath api folderName base)
        (metaPath api folderName base) (ensureDir fs (pathJoin api.saveFolderName folderName))
      rw [he, fallbackServe_noParse_nonempty hread orig]
      show metaCatch _ _ = _
      rw [metaCatch_noParse hread]
      rfl
    · intro hd
      have hread : (ensureDir fs (pathJoin api.saveFolderName folderName)).read
          (dataPath api folderName base) = some (.noParse true) := by
        rw [read_ensureDir]
        exact hd
      rw [getData_check hb, checkExist_metaSome hmat hd hm, hma]
      show (match tryMetaBranch (maxAgeVal (some a)) net now _ _ _ _ with
            | (.ok v, fs1, n) => (Outcome.ok v, fs1, n)
            | (.error _, fs1, n) => (metaCatch fs1 _, fs1, n)).1 = _
      rw [show maxAgeVal (some a) = a from rfl, tryMeta_obj_stale hlf hst]
      obtain ⟨orig, he⟩ := fetchAndSave_fail hnf now (dataPath api folderName base)
        (metaPath api folderName base) (ensureDir fs (pathJoin api.saveFolderName folderName))
      rw [he, fallbackServe_empty hread orig]
      show metaCatch _ _ = _
      rw [metaCatch_noParse hread]
      rfl

/-- C3, witness: the first case of the amended claim, with a non-success
HTTP status (500) and no cache entry: the surfaced error is the
fallback's file-not-found error. -/
theorem claim3_witness :
    (getData testApi (.resp 500 (.json (.num 1))) 0 "p" "f" false fsEmpty).1
      = .err (.fileNotFound "root/f/p.json") :=
  (claim3_amended testApi (.resp 500 (.json (.num 1))) 0 "p" "f" "p" fsEmpty rfl rfl).1 rfl

/-- C4, counterexample: both artifacts present and parseable,
`lastFetched = 200000` (200 seconds later than `now = 0`, so the
claim's signed age `now - lastFetched` is negative and the claim demands
the cached value with no fetch); the code takes `Math.abs` of the
difference, finds 200 >= 100 = maxAge, and performs a network request,
returning the freshly fetched value 9 instead of the cached 7. -/
theorem claim4_counterexample :
    (getData testApi (.resp 200 (.json (.num 9))) 0 "p" "f" false fsFuture).2.2 = 1
    ∧ (getData testApi (.resp 200 (.json (.num 9))) 0 "p" "f" false fsFuture).1
        = .ok (.num 9)
    ∧ ((0 : ℤ) - 200000 < 0) :=
  ⟨rfl, rfl, by decide⟩

/-- C4 (amended): with a freshness window `maxAge` and both artifacts
parseable, the age is the absolute value
`|Number(((now - lastFetched)/1000).toFixed(2))|` (here scaled by 100);
if it is below the window the cached artifact is served with no network
request, and otherwise exactly one network request is performed — in
particular a `lastFetched` in the future by at least the window counts
as stale, not fresh. -/
theorem claim4_amended (api : CacheApi) (net : NetResult) (now : ℤ)
    (urlPath folderName base : String) (fs : FS) (a lf : ℤ)
    (fields : List (String × Json)) (v : Json)
    (hb : cacheBaseName urlPath = some base)
    (hma : api.maxAge = some a) (ha : a ≠ 0)
    (hd : fs.read (dataPath api folderName base) = some (.parses v))
    (hm : fs.read (metaPath api folderName base) = some (.parses (.obj fields)))
    (hlf : getLastFetched (.obj fields) = some lf) :
    (jsAbs (diff_in_unit_x100 now lf .seconds) < 100 * a →
      (getData api net now urlPath folderName false fs).1 = .ok v
      ∧ (getData api net now urlPath folderName false fs).2.2 = 0)
    ∧ (¬ jsAbs (diff_in_unit_x100 now lf .seconds) < 100 * a →
      (getData api net now urlPath folderName false fs).2.2 = 1) := by
  have hmat : maxAgeTruthy api.maxAge = true := by
    rw [hma]
    simpa [maxAgeTruthy] using ha
  have hread : (ensureDir fs (pathJoin api.saveFolderName folderName)).read
      (dataPath api folderName base) = some (.parses v) := by
    rw [read_ensureDir]
    exact hd
  constructor
  · intro hfr
    rw [getData_check hb, checkExist_metaSome hmat hd hm, hma]
    rw [show maxAgeVal (some a) = a from rfl,
      tryMeta_obj_fresh hlf hfr hread net (metaPath api folderName base)]
    exact ⟨rfl, rfl⟩
  · intro hst
    rw [getData_check hb, checkExist_metaSome hmat hd hm, hma]
    rw [show maxAgeVal (some a) = a from rfl, tryMeta_obj_stale hlf hst]
    have hc := fetchAndSave_count net now (dataPath api folderName base)
      (metaPath api folderName base) (ensureDir fs (pathJoin api.saveFolderName folderName))
    rcases hfs : fetchAndSave net now (dataPath api folderName base)
      (metaPath api folderName base) (ensureDir fs (pathJoin api.saveFolderName folderName))
      with ⟨e, fs1, n⟩
    rw [hfs] at hc
    cases e <;> simpa using hc

/-- C4, witness: the fresh branch of the amended claim on a
just-written entry (`lastFetched = now = 0`, window 100 s): the cached
value is served with zero requests. -/
theorem claim4_witness :
    (getData testApi .reject 0 "p" "f" false fsFresh).1 = .ok (.num 7)
    ∧ (getData testApi .reject 0 "p" "f" false fsFresh).2.2 = 0 :=
  (claim4_amended testApi .reject 0 "p" "f" "p" fsFresh 100 0
    [("lastFetched", .num 0)] (.num 7) rfl rfl (by decide) rfl rfl rfl).1 (by decide)

/-- C8: every call of the operation terminates (the model is a total
function) and performs at most one network request; a miss (no data
artifact) performs exactly one, and a call within the freshness window
performs none. -/
theorem claim8_at_most_one_fetch (api : CacheApi) (net : NetResult) (now : ℤ)
    (urlPath folderName : String) (fs : FS) :
    (getData api net now urlPath folderName false fs).2.2 ≤ 1
    ∧ (∀ base, cacheBaseName urlPath = some base →
        fs.read (dataPath api folderName base) = none →
        (getData api net now urlPath folderName false fs).2.2 = 1)
    ∧ (∀ base : String, ∀ a lf : ℤ, ∀ v : Json, ∀ fields : List (String × Json),
        cacheBaseName urlPath = some base →
        api.maxAge = some a → a ≠ 0 →
        fs.read (dataPath api folderName base) = some (.parses v) →
        fs.read (metaPath api folderName base) = some (.parses (.obj fields)) →
        getLastFetched (.obj fields) = some lf →
        jsAbs (diff_in_unit_x100 now lf .seconds) < 100 * a →
        (getData api net now urlPath folderName false fs).2.2 = 0) := by
  refine ⟨getData_count api net now urlPath folderName false fs, ?_, ?_⟩
  · intro base hb hmiss
    rw [getData_check hb, checkExist_miss hmiss, exceptToOutcome_count, fetchAndSave_count]
  · intro base a lf v fields hb hma ha hd hm hlf hfr
    have hmat : maxAgeTruthy api.maxAge = true := by
      rw [hma]
      simpa [maxAgeTruthy] using ha
    have hread : (ensureDir fs (pathJoin api.saveFolderName folderName)).read
        (dataPath api folderName base) = some (.parses v) := by
      rw [read_ensureDir]
      exact hd
    rw [getData_check hb, checkExist_metaSome hmat hd hm, hma]
    rw [show maxAgeVal (some a) = a from rfl,
      tryMeta_obj_fresh hlf hfr hread net (metaPath api folderName base)]

/-- C8, witness: the miss case on the empty storage root performs
exactly one network request. -/
theorem claim8_witness :
    (getData testApi (.resp 200 (.json (.num 5))) 0 "p" "f" false fsEmpty).2.2 = 1 :=
  (claim8_at_most_one_fetch testApi (.resp 200 (.json (.num 5))) 0 "p" "f" fsEmpty).2.1
    "p" rfl rfl

/-- C10: a freshness window of 0 seconds is falsy for line 101's
`if (this.maxAge)`, so the operation behaves exactly — same outcome,
same filesystem, same request count — as with no window configured; in
particular an existing parseable data artifact is served from cache with
no network request and no staleness check, regardless of its age. -/
theorem claim10_zero_window_is_no_window (api : CacheApi) (net : NetResult) (now : ℤ)
    (urlPath folderName : String) (fs : FS)
    (hma : api.maxAge = some 0) :
    getData api net now urlPath folderName false fs
      = getData ⟨api.basePath, api.saveFolderName, none⟩ net now urlPath folderName false fs
    ∧ (∀ base v, cacheBaseName urlPath = some base →
        fs.read (dataPath api folderName base) = some (.parses v) →
        (getData api net now urlPath folderName false fs).1 = .ok v
        ∧ (getData api net now urlPath folderName false fs).2.2 = 0) := by
  have hma0 : maxAgeTruthy api.maxAge = false := by
    rw [hma]
    decide
  have hmn : maxAgeTruthy none = false := rfl
  constructor
  · cases hb : cacheBaseName urlPath with
    | none => simp [getData, hb]
    | some base =>
        rw [getData_check hb api net now folderName fs,
          getData_check hb ⟨api.basePath, api.saveFolderName, none⟩ net now folderName fs]
        exact checkExist_falsy_congr hma0 hmn net now _ _ _ fs
  · intro base v hb hd
    rw [getData_check hb api net now folderName fs,
      checkExist_noMaxAge_parses hma0 hd net now]
    exact ⟨rfl, rfl⟩

/-- C10, witness: with window 0 and an arbitrarily old entry (instant
99999999), the cached value 7 is served with zero network requests. -/
theorem claim10_witness :
    (getData ⟨"b", "root", some 0⟩ .reject 99999999 "p" "f" false fsDataOnly).1
      = .ok (.num 7)
    ∧ (getData ⟨"b", "root", some 0⟩ .reject 99999999 "p" "f" false fsDataOnly).2.2 = 0 :=
  (claim10_zero_window_is_no_window ⟨"b", "root", some 0⟩ .reject 99999999 "p" "f"
    fsDataOnly rfl).2 "p" (.num 7) rfl rfl

end CacheApiLocal
